import Mathlib

/-!
Verification of the pybdv metadata and conversion core.

Shallow embedding of `pybdv/converter.py` and `pybdv/metadata.py`:
pure Python functions become Lean functions, the HDF5/N5 container and the
BigDataViewer XML document become explicit state values, Python exceptions
(`ValueError`, `RuntimeError`, `AssertionError`, `KeyError`) become
`Except`/error results, and NumPy axis reversal (`[::-1]`) becomes `rev3`.
Axis triples follow NumPy order `(z, y, x)` unless reversed by `rev3`.
-/

namespace Pybdv

/-! Triple helpers: 3-vectors of per-axis values, mirroring the Python
3-tuples/lists used for shapes, resolutions and scale factors. -/

abbrev ITriple := Int × Int × Int
abbrev QTriple := Rat × Rat × Rat

instance {ε α : Type} [DecidableEq ε] [DecidableEq α] : DecidableEq (Except ε α) := fun a b =>
  match a, b with
  | .error e, .error f =>
    if h : e = f then isTrue (h ▸ rfl) else isFalse (fun hc => h (Except.error.inj hc))
  | .ok x, .ok y =>
    if h : x = y then isTrue (h ▸ rfl) else isFalse (fun hc => h (Except.ok.inj hc))
  | .error _, .ok _ => isFalse (fun hc => Except.noConfusion hc)
  | .ok _, .error _ => isFalse (fun hc => Except.noConfusion hc)

/-- Reversal of a 3-tuple, the model of Python's `t[::-1]`. -/
def rev3 {α : Type} (t : α × α × α) : α × α × α := (t.2.2, t.2.1, t.1)

/-- Elementwise product of two integer triples. -/
def mul3 (a b : ITriple) : ITriple := (a.1 * b.1, a.2.1 * b.2.1, a.2.2 * b.2.2)

theorem mul3_one_left (t : ITriple) : mul3 (1, 1, 1) t = t := by
  obtain ⟨a, b, c⟩ := t
  simp [mul3]

theorem rev3_rev3 {α : Type} (t : α × α × α) : rev3 (rev3 t) = t := by
  obtain ⟨a, b, c⟩ := t
  rfl

theorem rev3_injective {α : Type} {a b : α × α × α} (h : rev3 a = rev3 b) : a = b := by
  rw [← rev3_rev3 a, h, rev3_rev3]

theorem rev3_mul3 (a b : ITriple) : rev3 (mul3 a b) = mul3 (rev3 a) (rev3 b) := by
  obtain ⟨a1, a2, a3⟩ := a
  obtain ⟨b1, b2, b3⟩ := b
  rfl

/-- Ordered-dictionary lookup on an association list keyed by strings; models
Python `d[k]`/`k in d` on dicts that are stored as insertion-ordered lists. -/
def lookupKey {α : Type} (k : String) : List (String × α) → Option α
  | [] => none
  | p :: rest => if p.1 = k then some p.2 else lookupKey k rest

theorem lookupKey_of_nodup {α : Type} {l : List (String × α)}
    (hnd : (l.map Prod.fst).Nodup) {p : String × α} (hp : p ∈ l) :
    lookupKey p.1 l = some p.2 := by
  induction l with
  | nil => cases hp
  | cons q rest ih =>
    simp only [List.map_cons, List.nodup_cons] at hnd
    rcases List.mem_cons.mp hp with h | h
    · subst h
      simp [lookupKey]
    · have hne : q.1 ≠ p.1 := by
        intro he
        exact hnd.1 (he ▸ List.mem_map.mpr ⟨p, h, rfl⟩)
      rw [lookupKey, if_neg hne]
      exact ih hnd.2 h

/-! Embedding of `converter.py`. -/

/-- Sum of a block's elements, the model of `data.sum()` in `copy_chunk`. -/
def blockSum (data : List Int) : Int := data.foldl (fun a b => a + b) 0

/-- One iteration of `copy_chunk` from `copy_dataset`: returns `none` when the
block is skipped (nothing written to the destination) and `some written` when
the block, dtype-converted when requested, is written at the block's
coordinates.  `conv` models `convert_to_bdv_dtype` (an external collaborator). -/
def copy_chunk (convert : Bool) (conv : Int → Int) (data : List Int) : Option (List Int) :=
  if blockSum data = 0 then none
  else some (if convert then data.map conv else data)

/-- Reading a block back from the destination dataset: an h5py dataset created
by `create_dataset` is implicitly zero-filled, so an unwritten block reads back
as zeros of the block's shape. -/
def readBack (written : Option (List Int)) (n : Nat) : List Int :=
  match written with
  | some d => d
  | none => List.replicate n 0

/-- The block loop of `copy_dataset`: every grid block is processed by
`copy_chunk` at its own (identical) coordinates. -/
def copy_dataset_blocks (convert : Bool) (conv : Int → Int)
    (blocks : List (List Int)) : List (Option (List Int)) :=
  blocks.map (copy_chunk convert conv)

/-- Python `max(xs)`: a `ValueError` on the empty list, otherwise the maximum. -/
def maxList : List Int → Except String Int
  | [] => .error "ValueError: max() arg is an empty sequence"
  | x :: xs => .ok (xs.foldl max x)

/-- The trailing assert of `handle_setup_id`: `assert setup_id < 100`. -/
def assertLt100 (sid : Int) : Except String Int :=
  if sid < 100 then .ok sid else .error "AssertionError: Only up to 100 set-ups are supported"

/-- Embedding of `handle_setup_id`.  `container = none` models a missing h5
file; `container = some ids` models an existing file whose `t00000` group
holds the given setup ids.  `overwrite` models the interactive prompt answer
(`'y'` or not); a non-`'y'` answer runs `sys.exit(0)`, modelled as an error. -/
def handle_setup_id (setupId : Option Int) (container : Option (List Int))
    (overwrite : Bool) : Except String Int :=
  let setup_ids : List Int :=
    match container with
    | some ids => ids
    | none => [-1]
  match setupId with
  | none =>
    match maxList setup_ids with
    | .error e => .error e
    | .ok m => assertLt100 (m + 1)
  | some sid =>
    if sid ∈ setup_ids then
      if overwrite then assertLt100 sid else .error "sys.exit(0)"
    else assertLt100 sid

/-! Scale-factor computations shared by `make_scales`, `write_h5_metadata`
and `write_n5_metadata`. -/

/-- A downscale factor as accepted by `make_scales`: a plain int or a 3-tuple. -/
inductive DSFactor
  | int : Int → DSFactor
  | triple : ITriple → DSFactor
deriving DecidableEq

/-- Normalization in `make_scales`: `ndim*[factor] if isinstance(factor, int)`. -/
def normalizeFactor : DSFactor → ITriple
  | .int n => (n, n, n)
  | .triple t => t

/-- The factor list returned by `make_scales`: the normalized per-stage factors
with `[1, 1, 1]` prepended as the first level. -/
def make_scales_factors (downscale_factors : List DSFactor) : List ITriple :=
  (1, 1, 1) :: downscale_factors.map normalizeFactor

/-- The accumulation loop of `write_h5_metadata`: starting from an effective
scale, multiply in each per-level factor and record the reversed effective
scale for each level. -/
def effScalesAux (eff : ITriple) : List ITriple → List ITriple
  | [] => []
  | f :: fs =>
    let e := mul3 eff f
    rev3 e :: effScalesAux e fs

/-- Rows of the `resolutions` array computed by `write_h5_metadata`. -/
def h5Scales (scale_factors : List ITriple) : List ITriple :=
  effScalesAux (1, 1, 1) scale_factors

/-- Rows of the `subdivisions` array computed by `write_h5_metadata`: the chunk
shape read back from each already written level, reversed (`chunks[::-1]`). -/
def h5Chunks (chunkShapes : List ITriple) : List ITriple :=
  chunkShapes.map rev3

/-- Axis-wise product of the first `k` factors of a list, starting from
`(1, 1, 1)`: the cumulative scale factor of the specification. -/
def cumFactor (fs : List ITriple) (k : Nat) : ITriple :=
  (fs.take k).foldl mul3 (1, 1, 1)

/-- The accumulation loop of `write_n5_metadata`: each further effective scale
is the previous one times the reversed per-level factor. -/
def n5Accum (prev : ITriple) : List ITriple → List ITriple
  | [] => []
  | f :: fs =>
    let cur := mul3 prev (rev3 f)
    cur :: n5Accum cur fs

/-- `effective_scales` as computed by `write_n5_metadata`: the first factor
kept as is, every later level multiplied in with reversed axes. -/
def n5EffectiveScales : List ITriple → List ITriple
  | [] => []
  | f :: fs => f :: n5Accum f fs

/-! Embedding of `write_h5_metadata` (container-native HDF5 metadata). -/

/-- Error message of the consistency `RuntimeError`. -/
def inconsistentMsg (sid : Int) : String :=
  "Metadata for setup " ++ toString sid ++ " already exists and is inconsistent"

/-- The per-setup HDF5 metadata records `s{sid}/resolutions` and
`s{sid}/subdivisions`; `none` models an absent dataset. -/
structure H5Meta where
  resolutions : Option (List ITriple)
  subdivisions : Option (List ITriple)
deriving DecidableEq

/-- Embedding of `write_h5_metadata`: compute the scales from the factor list
and the chunks from the chunk shapes read back per level, then compare-or-write
each record.  Returns the final container state together with the raised
error, if any (the state is returned even on error because the `resolutions`
write happens before the `subdivisions` check can raise). -/
def write_h5_metadata (st : H5Meta) (scale_factors chunkShapes : List ITriple)
    (sid : Int) : H5Meta × Option String :=
  let scales := h5Scales scale_factors
  let chunks := h5Chunks chunkShapes
  match st.resolutions with
  | some prior =>
    if prior = scales then
      match st.subdivisions with
      | some priorC =>
        if priorC = chunks then (st, none) else (st, some (inconsistentMsg sid))
      | none => ({ st with subdivisions := some chunks }, none)
    else (st, some (inconsistentMsg sid))
  | none =>
    match st.subdivisions with
    | some priorC =>
      if priorC = chunks then ({ st with resolutions := some scales }, none)
      else ({ st with resolutions := some scales }, some (inconsistentMsg sid))
    | none => ({ st with resolutions := some scales, subdivisions := some chunks }, none)

/-! Embedding of `write_n5_metadata` (container-native N5 attributes). -/

/-- N5 container attributes touched by `write_n5_metadata`: the setup root's
`downsamplingFactors` and `dataType`, the timepoint group's `multiScale` and
`resolution`, and each scale level group's own `downsamplingFactors` (one
entry per existing `s{i}` group, `none` while unset). -/
structure N5State where
  dsFactors : Option (List ITriple)
  dataType : Option String
  multiScale : Option Bool
  resolution : Option QTriple
  levels : List (Option ITriple)
deriving DecidableEq

/-- Compare-or-write for one N5 attribute: raise if a different prior value
exists, otherwise (re)write the new value. -/
def n5CompareOrWrite {α : Type} [DecidableEq α] (prior : Option α) (newVal : α)
    (sid : Int) : Except String α :=
  match prior with
  | some p => if p ≠ newVal then .error (inconsistentMsg sid) else .ok newVal
  | none => .ok newVal

/-- The per-level attribute loop: `g['s%i' % scale_id]` raises a `KeyError`
when the level group does not exist, otherwise the level's attribute is set to
its cumulative factor. -/
def setLevels : List ITriple → List (Option ITriple) → Except String (List (Option ITriple))
  | [], ls => .ok ls
  | _ :: _, [] => .error "KeyError: missing scale level group"
  | f :: fs, _ :: ls =>
    match setLevels fs ls with
    | .error e => .error e
    | .ok ls2 => .ok (some f :: ls2)

/-- Embedding of `write_n5_metadata`.  `dtype` models the element type string
read from the level-0 dataset. -/
def write_n5_metadata (st : N5State) (scale_factors : List ITriple)
    (resolution : QTriple) (sid : Int) (dtype : String) : Except String N5State :=
  let eff := n5EffectiveScales scale_factors
  match n5CompareOrWrite st.dsFactors eff sid with
  | .error e => .error e
  | .ok dsf =>
    match n5CompareOrWrite st.dataType dtype sid with
    | .error e => .error e
    | .ok dt =>
      match setLevels eff st.levels with
      | .error e => .error e
      | .ok ls =>
        .ok { st with dsFactors := some dsf, dataType := some dt,
                      multiScale := some true, resolution := some (rev3 resolution),
                      levels := ls }

/-! Embedding of the BigDataViewer XML document and `write_xml_metadata`.
The parsed XML tree is modelled as a typed record; equality of `Doc` values
stands for byte-for-byte equality of the serialized files, because
`indent_xml` + `ElementTree.write` serialize a given tree deterministically. -/

/-- One `<id>/<name>` child inside an `Attributes` registry. -/
structure AttrEntry where
  id : Int
  name : String
deriving DecidableEq

/-- One `Attributes[name]` registry element under `ViewSetups`. -/
structure AttrRegistry where
  name : String
  entries : List AttrEntry
deriving DecidableEq

/-- One `ViewSetup` element.  `size` is stored in `(nx, ny, nz)` order and
`voxelSize` in `(dx, dy, dz)` order, exactly as the XML text is formatted. -/
structure ViewSetupX where
  id : Int
  name : String
  size : ITriple
  unit : String
  voxelSize : QTriple
  attributes : List (String × Int)
deriving DecidableEq

/-- One `ViewTransform[type="affine"]` element, with its optional `Name`. -/
structure ViewTransformX where
  affine : List Rat
  tname : Option String
deriving DecidableEq

/-- One `ViewRegistration[timepoint, setup]` element. -/
structure ViewRegX where
  timepoint : Int
  setup : Int
  transforms : List ViewTransformX
deriving DecidableEq

/-- The whole SpimData document. -/
structure Doc where
  format : String
  dataFile : String
  viewSetups : List ViewSetupX
  registries : List AttrRegistry
  firstT : Int
  lastT : Int
  viewRegs : List ViewRegX
deriving DecidableEq

/-- The `affine` argument of `write_xml_metadata`: a single 12-float list or an
ordered mapping of name to 12-float list. -/
inductive AffineArg
  | single : List Rat → AffineArg
  | named : List (String × List Rat) → AffineArg
deriving DecidableEq

/-- The argument record of one `write_xml_metadata` call.  `shape` is the
`(nz, ny, nx)` shape read from the level-0 dataset of `data_path`. -/
structure XmlArgs where
  dataFile : String
  unit : String
  resolution : QTriple
  shape : ITriple
  isH5 : Bool
  setupId : Int
  timepoint : Int
  setupName : Option String
  affine : Option AffineArg
  attributes : List (String × Int)
deriving DecidableEq

/-- `setup_name = 'Setup%i' % setup_id if setup_name is None else setup_name`. -/
def resolvedName (a : XmlArgs) : String :=
  match a.setupName with
  | some n => n
  | none => "Setup" ++ toString a.setupId

/-- The `(nx, ny, nz)` size text written/checked for a view setup. -/
def sizeXYZ (a : XmlArgs) : ITriple := rev3 a.shape

/-- The `(dx, dy, dz)` voxel size text written/checked for a view setup. -/
def voxelXYZ (a : XmlArgs) : QTriple := rev3 a.resolution

/-- One direction of Python dict equality on association lists. -/
def dictLe (a b : List (String × Int)) : Bool :=
  a.all (fun p => decide (lookupKey p.1 b = some p.2))

/-- Python dict equality (`view_attrs != attributes`): key-set equality plus
equal values, insensitive to insertion order. -/
def dictEq (a b : List (String × Int)) : Bool :=
  dictLe a b && dictLe b a

/-- The `_check_setup` closure of `_require_view_setup`: each field of an
existing `ViewSetup` must match the new call's values, with one distinct
error per field, checked in source order. -/
def checkSetup (vs : ViewSetupX) (setup_name : String) (size : ITriple)
    (unit : String) (voxel : QTriple) (attributes : List (String × Int)) :
    Except String Unit :=
  if vs.name ≠ setup_name then .error "Incompatible setup name"
  else if vs.size ≠ size then .error "Incompatible dataset size"
  else if vs.unit ≠ unit then .error "Incompatible unit of measurement"
  else if vs.voxelSize ≠ voxel then .error "Incompatible voxel size"
  else if ¬ (dictEq vs.attributes attributes = true) then .error "Incompatible view attributes"
  else .ok ()

/-- The `ViewSetup` element appended for a new setup id. -/
def mkViewSetup (setup_id : Int) (setup_name : String) (size : ITriple)
    (unit : String) (voxel : QTriple) (attributes : List (String × Int)) : ViewSetupX :=
  ⟨setup_id, setup_name, size, unit, voxel, attributes⟩

/-- Embedding of `_require_view_setup`: check an existing setup with the same
id, or append a new `ViewSetup` element. -/
def requireViewSetup (setups : List ViewSetupX) (setup_id : Int) (setup_name : String)
    (size : ITriple) (unit : String) (voxel : QTriple)
    (attributes : List (String × Int)) : Except String (List ViewSetupX) :=
  match setups.find? (fun vs => decide (vs.id = setup_id)) with
  | some vs =>
    match checkSetup vs setup_name size unit voxel attributes with
    | .error e => .error e
    | .ok _ => .ok setups
  | none => .ok (setups ++ [mkViewSetup setup_id setup_name size unit voxel attributes])

/-- Embedding of `_initialize_attributes`: one registry per attribute name,
seeded with the provided id, the entry name defaulting to the id's string. -/
def initAttributes (attributes : List (String × Int)) : List AttrRegistry :=
  attributes.map (fun p => ⟨p.1, [⟨p.2, toString p.2⟩]⟩)

/-- One registry update of `_update_attributes`: the registry's name must be a
requested attribute (a Python `assert`), and a new id is appended when absent. -/
def updateRegistry (attributes : List (String × Int)) (reg : AttrRegistry) :
    Except String AttrRegistry :=
  match lookupKey reg.name attributes with
  | none => .error "AssertionError"
  | some i =>
    if (reg.entries.map AttrEntry.id).contains i then .ok reg
    else .ok ⟨reg.name, reg.entries ++ [⟨i, toString i⟩]⟩

/-- Embedding of `_update_attributes` over all registries, in document order. -/
def updateAttributes (attributes : List (String × Int)) :
    List AttrRegistry → Except String (List AttrRegistry)
  | [] => .ok []
  | r :: rs =>
    match updateRegistry attributes r with
    | .error e => .error e
    | .ok r2 =>
      match updateAttributes attributes rs with
      | .error e => .error e
      | .ok rs2 => .ok (r2 :: rs2)

/-- The default affine of `_write_default_affine`: a diagonal scaling matrix
with zero translation, row-major `[dx,0,0,0, 0,dy,0,0, 0,0,dz,0]`. -/
def defaultAffine (resolution : QTriple) : List Rat :=
  [resolution.2.2, 0, 0, 0, 0, resolution.2.1, 0, 0, 0, 0, resolution.1, 0]

/-- The `ViewRegistration` element appended by `_write_default_affine` /
`_write_affine` for `(setup_id, timepoint)`. -/
def mkViewReg (setup_id timepoint : Int) (resolution : QTriple)
    (affine : Option AffineArg) : ViewRegX :=
  match affine with
  | none => ⟨timepoint, setup_id, [⟨defaultAffine resolution, none⟩]⟩
  | some (.single l) => ⟨timepoint, setup_id, [⟨l, none⟩]⟩
  | some (.named m) => ⟨timepoint, setup_id, m.map (fun p => ⟨p.2, some p.1⟩)⟩

/-- Embedding of `write_xml_metadata` as a pure document transform: `none`
models a missing XML file (a fresh document is built), `some d` an existing
one (updated in place).  Any raised error aborts before the terminal
serialization step. -/
def write_xml_metadata (doc : Option Doc) (a : XmlArgs) : Except String Doc :=
  match doc with
  | some d =>
    match updateAttributes a.attributes d.registries with
    | .error e => .error e
    | .ok regs2 =>
      match requireViewSetup d.viewSetups a.setupId (resolvedName a) (sizeXYZ a)
          a.unit (voxelXYZ a) a.attributes with
      | .error e => .error e
      | .ok setups2 =>
        .ok { d with registries := regs2,
                     firstT := min d.firstT a.timepoint,
                     lastT := max d.lastT a.timepoint,
                     viewSetups := setups2,
                     viewRegs := d.viewRegs ++
                       [mkViewReg a.setupId a.timepoint a.resolution a.affine] }
  | none =>
    match requireViewSetup [] a.setupId (resolvedName a) (sizeXYZ a)
        a.unit (voxelXYZ a) a.attributes with
    | .error e => .error e
    | .ok setups2 =>
      .ok ⟨if a.isH5 then "bdv.hdf5" else "bdv.n5", a.dataFile, setups2,
           initAttributes a.attributes, a.timepoint, a.timepoint,
           [mkViewReg a.setupId a.timepoint a.resolution a.affine]⟩

/-- The on-disk effect of one `write_xml_metadata` call: `tree.write(xml_path)`
is the single terminal step, so an error leaves the prior file untouched. -/
def writeXmlOnDisk (disk : Option Doc) (a : XmlArgs) : Option Doc × Option String :=
  match write_xml_metadata disk a with
  | .ok d => (some d, none)
  | .error e => (disk, some e)

/-! Embedding of `validate_attributes`. -/

/-- The setup-record scan of `validate_attributes`: the attribute mapping of
the first `ViewSetup` whose id matches, if any. -/
def findSetupAttrs (setups : List ViewSetupX) (sid : Int) : Option (List (String × Int)) :=
  match setups.find? (fun vs => decide (vs.id = sid)) with
  | some vs => some vs.attributes
  | none => none

/-- The per-registry id resolution of `validate_attributes`, after the
requested id for the registry's name has been looked up. -/
def vaResolve (thisId : Option Int) (recAttrs : Option (List (String × Int)))
    (name : String) (reg : AttrRegistry) : Except String Int :=
  match thisId, recAttrs with
  | none, none =>
    match maxList (reg.entries.map AttrEntry.id) with
    | .error e => .error e
    | .ok m => .ok (m + 1)
  | none, some r =>
    match lookupKey name r with
    | some j => .ok j
    | none => .error "KeyError"
  | some i, some r =>
    match lookupKey name r with
    | some j => if i = j then .ok i else .error "Expect a different id for this attribute"
    | none => .error "KeyError"
  | some i, none => .ok i

/-- The registry loop of `validate_attributes`, building `attrs_out` in
document order; a missing requested name raises immediately. -/
def vaLoop (attrs : List (String × Option Int)) (recAttrs : Option (List (String × Int))) :
    List AttrRegistry → Except String (List (String × Int))
  | [] => .ok []
  | reg :: rest =>
    match lookupKey reg.name attrs with
    | none => .error ("Expect attributes to contain " ++ reg.name)
    | some thisId =>
      match vaResolve thisId recAttrs reg.name reg with
      | .error e => .error e
      | .ok rid =>
        match vaLoop attrs recAttrs rest with
        | .error e => .error e
        | .ok out => .ok ((reg.name, rid) :: out)

/-- The registered attribute names of a document. -/
def regNames (d : Doc) : List String := d.registries.map AttrRegistry.name

/-- Embedding of `validate_attributes`: without a document, unset ids become 0;
with a document, ids are resolved per registry and requested names that are
not registered raise at the end. -/
def validate_attributes (doc : Option Doc) (attrs : List (String × Option Int))
    (sid : Int) : Except String (List (String × Int)) :=
  match doc with
  | none => .ok (attrs.map (fun p => (p.1, p.2.getD 0)))
  | some d =>
    match vaLoop attrs (findSetupAttrs d.viewSetups sid) d.registries with
    | .error e => .error e
    | .ok out =>
      if attrs.any (fun q => decide (q.1 ∉ regNames d)) then
        .error "Attributes contains unexpected names"
      else .ok out

/-- Error discriminator for `Except` results. -/
def isErr {ε α : Type} : Except ε α → Bool
  | .error _ => true
  | .ok _ => false

/-! Concrete fixtures used by witnesses and counterexamples. -/

/-- A concrete argument set: one setup, one channel attribute, defaults. -/
def a0 : XmlArgs :=
  ⟨"data.h5", "pixel", (1, 1, 1), (8, 16, 32), true, 0, 0, none, none, [("channel", 0)]⟩

/-- The document produced by the first `write_xml_metadata` call on `a0`. -/
def doc1 : Doc :=
  ⟨"bdv.hdf5", "data.h5",
   [⟨0, "Setup0", (32, 16, 8), "pixel", (1, 1, 1), [("channel", 0)]⟩],
   [⟨"channel", [⟨0, "0"⟩]⟩], 0, 0,
   [⟨0, 0, [⟨[1, 0, 0, 0, 0, 1, 0, 0, 0, 0, 1, 0], none⟩]⟩]⟩

/-! Supporting lemmas. -/

theorem assertLt100_ok {s r : Int} (h : assertLt100 s = .ok r) : r < 100 ∧ r = s := by
  unfold assertLt100 at h
  split at h
  · injection h with h2
    subst h2
    exact ⟨by assumption, rfl⟩
  · exact Except.noConfusion h

theorem le_foldl_max_init (x : Int) (xs : List Int) : x ≤ xs.foldl max x := by
  induction xs generalizing x with
  | nil => simp
  | cons y ys ih =>
    simp only [List.foldl_cons]
    exact le_trans (le_max_left x y) (ih (max x y))

theorem le_foldl_max_mem (xs : List Int) : ∀ (x : Int), ∀ i ∈ xs, i ≤ xs.foldl max x := by
  induction xs with
  | nil =>
    intro x i hi
    cases hi
  | cons y ys ih =>
    intro x i hi
    rcases List.mem_cons.mp hi with h | h
    · subst h
      simp only [List.foldl_cons]
      exact le_trans (le_max_right x i) (le_foldl_max_init _ _)
    · simp only [List.foldl_cons]
      exact ih _ i h

/-! Claim theorems. -/

/-- Claim C2 (code evidence): `copy_chunk` skips the block `[1, -1]`, whose
elements are not all zero, because its sum is zero; the unwritten block then
reads back from the zero-filled destination as `[0, 0]`, silently losing the
data.  This contradicts the claim (and the code's own `skip empty chunks`
comment), which skip only blocks whose every element is the dtype's zero. -/
theorem copy_chunk_skips_nonzero_block :
    copy_chunk false (fun x => x) [1, -1] = none
    ∧ (([1, -1] : List Int).all (fun x => decide (x = 0))) = false
    ∧ readBack (copy_chunk false (fun x => x) [1, -1]) 2 = [0, 0] :=
  ⟨rfl, by decide, rfl⟩

/-- Claim C10: with `setup_id = None`, `handle_setup_id` returns 0 when the
container file does not exist, and `max(existing ids) + 1` when it does (every
existing id is at most the maximum, so gaps below it are skipped, never
filled); every returned id passes the `setup_id < 100` assertion; an
explicitly supplied id has no lower-bound check (any id below 100 that is not
already present is returned unchanged, negative ones included). -/
theorem handle_setup_id_spec :
    (∀ ov, handle_setup_id none none ov = .ok 0)
    ∧ (∀ (ids : List Int) (m : Int) (ov : Bool), maxList ids = .ok m → m + 1 < 100 →
        handle_setup_id none (some ids) ov = .ok (m + 1) ∧ ∀ i ∈ ids, i ≤ m)
    ∧ (∀ (sid : Option Int) (cont : Option (List Int)) (ov : Bool) (r : Int),
        handle_setup_id sid cont ov = .ok r → r < 100)
    ∧ (∀ (sid : Int) (ov : Bool), sid < 100 → sid ≠ -1 →
        handle_setup_id (some sid) none ov = .ok sid) := by
  refine ⟨fun ov => rfl, ?_, ?_, ?_⟩
  · intro ids m ov hm hlt
    constructor
    · simp only [handle_setup_id, hm, assertLt100, if_pos hlt]
    · intro i hi
      match ids, hm with
      | x :: xs, hm =>
        have hm2 : xs.foldl max x = m := by
          simpa [maxList] using hm
        rcases List.mem_cons.mp hi with h | h
        · subst h
          exact hm2 ▸ le_foldl_max_init i xs
        · exact hm2 ▸ le_foldl_max_mem xs x i h
  · intro sid cont ov r h
    rcases sid with _ | sid
    · simp only [handle_setup_id] at h
      split at h
      · exact Except.noConfusion h
      · exact (assertLt100_ok h).1
    · simp only [handle_setup_id] at h
      split at h
      · split at h
        · exact (assertLt100_ok h).1
        · exact Except.noConfusion h
      · exact (assertLt100_ok h).1
  · intro sid ov h100 hne
    have hmem : sid ∉ ([-1] : List Int) := by
      simp [hne]
    simp only [handle_setup_id, if_neg hmem, assertLt100, if_pos h100]

/-- Claim C10 witness: a container with ids `{0, 5}` (a gap at 1..4) gets next
id 6, skipping the gap. -/
theorem handle_setup_id_spec_witness :
    handle_setup_id none (some [0, 5]) false = .ok 6 :=
  (handle_setup_id_spec.2.1 [0, 5] 5 false (by decide) (by decide)).1

theorem effScalesAux_get (fs : List ITriple) :
    ∀ (eff : ITriple) (k : Nat), k < fs.length →
      (effScalesAux eff fs).get? k = some (rev3 ((fs.take (k + 1)).foldl mul3 eff)) := by
  induction fs with
  | nil =>
    intro eff k hk
    simp at hk
  | cons f rest ih =>
    intro eff k hk
    cases k with
    | zero => simp [effScalesAux]
    | succ k =>
      have hk2 : k < rest.length := by simpa using hk
      simp only [effScalesAux, List.get?_cons_succ, List.take_succ_cons, List.foldl_cons]
      exact ih (mul3 eff f) k hk2

theorem h5Scales_get (gs : List ITriple) (k : Nat) (hk : k ≤ gs.length) :
    (h5Scales ((1, 1, 1) :: gs)).get? k = some (rev3 (cumFactor gs k)) := by
  have hk2 : k < ((1, 1, 1) :: gs).length := by
    simpa using Nat.lt_succ_of_le hk
  rw [h5Scales, effScalesAux_get _ _ k hk2]
  simp only [cumFactor, List.take_succ_cons, List.foldl_cons, mul3_one_left]

/-- Claim C4: the `resolutions` rows written by `write_h5_metadata` for the
factor list produced by `make_scales` are the reversed cumulative scale
factors (row `k` = axis-wise product of the per-level factors up to level `k`),
row 0 being `(1, 1, 1)`; the `subdivisions` rows are the chunk shapes of the
written levels, also reversed. -/
theorem write_h5_metadata_rows (dfs : List DSFactor) (chunkShapes : List ITriple) :
    (∀ k, k ≤ dfs.length →
        (h5Scales (make_scales_factors dfs)).get? k =
          some (rev3 (cumFactor (dfs.map normalizeFactor) k)))
    ∧ (h5Scales (make_scales_factors dfs)).get? 0 = some (1, 1, 1)
    ∧ (∀ (k : Nat) (c : ITriple), chunkShapes.get? k = some c →
        (h5Chunks chunkShapes).get? k = some (rev3 c)) := by
  refine ⟨?_, ?_, ?_⟩
  · intro k hk
    exact h5Scales_get (dfs.map normalizeFactor) k (by simpa using hk)
  · exact (h5Scales_get (dfs.map normalizeFactor) 0 (by simp)).trans rfl
  · intro k c hc
    simp only [h5Chunks]
    rw [List.get?_map, hc]
    rfl

/-- Claim C4 witness: `factors = [2, (1,2,2)]` gives scale rows
`(1,1,1), (2,2,2), (4,4,2)` (reversed cumulative `(2,4,4)`), and a chunk shape
`(32,16,8)` is stored reversed as `(8,16,32)`. -/
theorem write_h5_metadata_rows_witness :
    (h5Scales (make_scales_factors [DSFactor.int 2, DSFactor.triple (1, 2, 2)])).get? 2 =
      some (4, 4, 2)
    ∧ (h5Chunks [(32, 16, 8)]).get? 0 = some (8, 16, 32) := by
  constructor
  · have h := (write_h5_metadata_rows [DSFactor.int 2, DSFactor.triple (1, 2, 2)] []).1 2
      (by decide)
    rw [h]
    rfl
  · have h := (write_h5_metadata_rows [] [(32, 16, 8)]).2.2 0 (32, 16, 8) rfl
    rw [h]
    rfl

theorem n5Accum_get (fs : List ITriple) :
    ∀ (prev : ITriple) (k : Nat), k < fs.length →
      (n5Accum prev fs).get? k = some (((fs.take (k + 1)).map rev3).foldl mul3 prev) := by
  induction fs with
  | nil =>
    intro prev k hk
    simp at hk
  | cons f rest ih =>
    intro prev k hk
    cases k with
    | zero => simp [n5Accum]
    | succ k =>
      have hk2 : k < rest.length := by simpa using hk
      simp only [n5Accum, List.get?_cons_succ, List.take_succ_cons, List.map_cons,
        List.foldl_cons]
      exact ih (mul3 prev (rev3 f)) k hk2

theorem rev3_foldl (l : List ITriple) :
    ∀ e, rev3 (l.foldl mul3 e) = (l.map rev3).foldl mul3 (rev3 e) := by
  induction l with
  | nil =>
    intro e
    rfl
  | cons f fs ih =>
    intro e
    simp only [List.foldl_cons, List.map_cons]
    rw [ih, rev3_mul3]

theorem n5EffectiveScales_get (fs : List ITriple) (k : Nat) (hk : k ≤ fs.length) :
    (n5EffectiveScales ((1, 1, 1) :: fs)).get? k =
      some (rev3 (cumFactor ((1, 1, 1) :: fs) (k + 1))) := by
  cases k with
  | zero => rfl
  | succ k =>
    have hk2 : k < fs.length := by omega
    have hL : (n5EffectiveScales ((1, 1, 1) :: fs)).get? (k + 1) =
        (n5Accum (1, 1, 1) fs).get? k := rfl
    rw [hL, n5Accum_get fs (1, 1, 1) k hk2]
    congr 1
    rw [cumFactor, List.take_succ_cons, List.foldl_cons, mul3_one_left, rev3_foldl]
    rfl

theorem n5Accum_length (fs : List ITriple) : ∀ prev, (n5Accum prev fs).length = fs.length := by
  induction fs with
  | nil =>
    intro prev
    rfl
  | cons f rest ih =>
    intro prev
    simp [n5Accum, ih]

theorem n5EffectiveScales_length (sf : List ITriple) :
    (n5EffectiveScales sf).length = sf.length := by
  cases sf with
  | nil => rfl
  | cons f fs => simp [n5EffectiveScales, n5Accum_length]

theorem setLevels_ok (eff : List ITriple) :
    ∀ (ls : List (Option ITriple)), eff.length ≤ ls.length →
      ∃ ls2, setLevels eff ls = .ok ls2
        ∧ ∀ (k : Nat) (v : ITriple), eff.get? k = some v → ls2.get? k = some (some v) := by
  induction eff with
  | nil =>
    intro ls _
    refine ⟨ls, rfl, ?_⟩
    intro k v hv
    simp at hv
  | cons f fs ih =>
    intro ls hlen
    cases ls with
    | nil => simp at hlen
    | cons l ls =>
      obtain ⟨ls2, h1, h2⟩ := ih ls (by simpa using hlen)
      refine ⟨some f :: ls2, ?_, ?_⟩
      · simp [setLevels, h1]
      · intro k v hv
        cases k with
        | zero =>
          simp only [List.get?_cons_zero, Option.some.injEq] at hv
          subst hv
          rfl
        | succ k =>
          simp only [List.get?_cons_succ] at hv ⊢
          exact h2 k v hv

/-- Claim C5: for a factor list starting with `(1,1,1)` (as every caller
passes), `write_n5_metadata` on a setup without prior attributes succeeds and
writes `downsamplingFactors` on the setup root, where level `k`'s entry is the
reversed — hence container-native, x-y-z ordered — axis-wise product of the
first `k+1` per-level factors; it also writes the `dataType` string on the
setup root, `multiScale = true` and the reversed `resolution` on the timepoint
group, and each level group's `downsamplingFactors` is that level's own
cumulative factor. -/
theorem write_n5_metadata_spec (fs : List ITriple) (res : QTriple) (sid : Int)
    (dtype : String) (st : N5State) (hdf : st.dsFactors = none)
    (hdt : st.dataType = none) (hlen : fs.length + 1 ≤ st.levels.length) :
    ∃ st2, write_n5_metadata st ((1, 1, 1) :: fs) res sid dtype = .ok st2
      ∧ st2.dsFactors = some (n5EffectiveScales ((1, 1, 1) :: fs))
      ∧ (∀ k, k ≤ fs.length →
          (n5EffectiveScales ((1, 1, 1) :: fs)).get? k =
            some (rev3 (cumFactor ((1, 1, 1) :: fs) (k + 1))))
      ∧ st2.dataType = some dtype
      ∧ st2.multiScale = some true
      ∧ st2.resolution = some (rev3 res)
      ∧ (∀ (k : Nat) (v : ITriple),
          (n5EffectiveScales ((1, 1, 1) :: fs)).get? k = some v →
            st2.levels.get? k = some (some v)) := by
  obtain ⟨ls2, hset, hget⟩ := setLevels_ok (n5EffectiveScales ((1, 1, 1) :: fs)) st.levels
    (by rw [n5EffectiveScales_length]; simpa using hlen)
  refine ⟨⟨some (n5EffectiveScales ((1, 1, 1) :: fs)), some dtype, some true,
          some (rev3 res), ls2⟩, ?_, rfl, ?_, rfl, rfl, rfl, ?_⟩
  · simp only [write_n5_metadata, hdf, hdt, n5CompareOrWrite, hset]
  · intro k hk
    exact n5EffectiveScales_get fs k hk
  · intro k v hv
    exact hget k v hv

/-- Claim C5 witness: factors `[(1,1,1), (2,2,2), (1,2,2)]` on a fresh
three-level setup write root `downsamplingFactors` `[(1,1,1), (2,2,2), (4,4,2)]`
(native axis order), and the level-2 entry is the reversed axis-wise product of
the first three per-level factors. -/
theorem write_n5_metadata_spec_witness :
    (write_n5_metadata ⟨none, none, none, none, [none, none, none]⟩
        [(1, 1, 1), (2, 2, 2), (1, 2, 2)] (1, 1, 2) 0 "int16").map N5State.dsFactors =
      .ok (some [(1, 1, 1), (2, 2, 2), (4, 4, 2)])
    ∧ (n5EffectiveScales [(1, 1, 1), (2, 2, 2), (1, 2, 2)]).get? 2 =
        some (rev3 (cumFactor [(1, 1, 1), (2, 2, 2), (1, 2, 2)] 3)) := by
  obtain ⟨st2, h1, h2, h3, _, _, _, _⟩ :=
    write_n5_metadata_spec [(2, 2, 2), (1, 2, 2)] (1, 1, 2) 0 "int16"
      ⟨none, none, none, none, [none, none, none]⟩ rfl rfl (by decide)
  constructor
  · rw [h1]
    simp only [Except.map]
    rw [h2]
    rfl
  · exact h3 2 (by decide)

theorem write_h5_metadata_post {st : H5Meta} {sfs chs : List ITriple} {sid : Int}
    (h : (write_h5_metadata st sfs chs sid).2 = none) :
    (write_h5_metadata st sfs chs sid).1.resolutions = some (h5Scales sfs)
    ∧ (write_h5_metadata st sfs chs sid).1.subdivisions = some (h5Chunks chs) := by
  obtain ⟨res, sub⟩ := st
  rcases res with _ | p <;> rcases sub with _ | c <;>
      simp only [write_h5_metadata] at h ⊢
  · simp
  · by_cases hc : c = h5Chunks chs
    · simp [hc]
    · simp [hc] at h
  · by_cases hp : p = h5Scales sfs
    · simp [hp]
    · simp [hp] at h
  · by_cases hp : p = h5Scales sfs
    · by_cases hc : c = h5Chunks chs
      · simp [hp, hc]
      · simp [hp, hc] at h
    · simp [hp] at h

theorem write_h5_metadata_idem {st : H5Meta} {sfs chs : List ITriple} {sid : Int}
    (h1 : st.resolutions = some (h5Scales sfs))
    (h2 : st.subdivisions = some (h5Chunks chs)) :
    write_h5_metadata st sfs chs sid = (st, none) := by
  obtain ⟨res, sub⟩ := st
  simp only at h1 h2
  subst h1
  subst h2
  simp [write_h5_metadata]

/-- Claim C6: `write_h5_metadata` raises the consistency error exactly when a
prior `resolutions` or `subdivisions` record disagrees with the newly computed
array; records that existed before the call are never mutated, error or not;
and on success every absent record holds the newly computed array. -/
theorem write_h5_metadata_consistency (st : H5Meta) (sfs chs : List ITriple) (sid : Int) :
    ((write_h5_metadata st sfs chs sid).2.isSome ↔
      (∃ p, st.resolutions = some p ∧ p ≠ h5Scales sfs)
      ∨ (∃ c, st.subdivisions = some c ∧ c ≠ h5Chunks chs))
    ∧ (∀ p, st.resolutions = some p →
        (write_h5_metadata st sfs chs sid).1.resolutions = some p)
    ∧ (∀ c, st.subdivisions = some c →
        (write_h5_metadata st sfs chs sid).1.subdivisions = some c)
    ∧ ((write_h5_metadata st sfs chs sid).2 = none →
        (write_h5_metadata st sfs chs sid).1.resolutions = some (h5Scales sfs)
        ∧ (write_h5_metadata st sfs chs sid).1.subdivisions = some (h5Chunks chs)) := by
  refine ⟨?_, ?_, ?_, fun h => write_h5_metadata_post h⟩
  · obtain ⟨res, sub⟩ := st
    rcases res with _ | p <;> rcases sub with _ | c <;>
        simp only [write_h5_metadata]
    · simp
    · by_cases hc : c = h5Chunks chs <;> simp [hc]
    · by_cases hp : p = h5Scales sfs <;> simp [hp]
    · by_cases hp : p = h5Scales sfs
      · by_cases hc : c = h5Chunks chs <;> simp [hp, hc]
      · simp [hp]
  · intro p hp
    obtain ⟨res, sub⟩ := st
    simp only at hp
    subst hp
    rcases sub with _ | c <;> simp only [write_h5_metadata]
    · by_cases hps : p = h5Scales sfs <;> simp [hps]
    · by_cases hps : p = h5Scales sfs
      · by_cases hc : c = h5Chunks chs <;> simp [hps, hc]
      · simp [hps]
  · intro c hc
    obtain ⟨res, sub⟩ := st
    simp only at hc
    subst hc
    rcases res with _ | p <;> simp only [write_h5_metadata]
    · by_cases hcc : c = h5Chunks chs <;> simp [hcc]
    · by_cases hps : p = h5Scales sfs
      · by_cases hcc : c = h5Chunks chs <;> simp [hps, hcc]
      · simp [hps]

/-- Claim C6 witness: a prior matching `resolutions` record is preserved
unchanged by a repeated call. -/
theorem write_h5_metadata_consistency_witness :
    (write_h5_metadata ⟨some [(1, 1, 1)], none⟩ [(1, 1, 1)] [(2, 2, 2)] 0).1.resolutions =
      some [(1, 1, 1)] :=
  (write_h5_metadata_consistency ⟨some [(1, 1, 1)], none⟩ [(1, 1, 1)] [(2, 2, 2)] 0).2.1
    [(1, 1, 1)] rfl

theorem dictLe_self (l : List (String × Int)) (h : (l.map Prod.fst).Nodup) :
    dictLe l l = true := by
  rw [dictLe, List.all_eq_true]
  intro p hp
  simp [lookupKey_of_nodup h hp]

theorem dictEq_self (l : List (String × Int)) (h : (l.map Prod.fst).Nodup) :
    dictEq l l = true := by
  simp [dictEq, dictLe_self l h]

theorem checkSetup_self (sid : Int) (n : String) (sz : ITriple) (u : String) (v : QTriple)
    (attrs : List (String × Int)) (h : (attrs.map Prod.fst).Nodup) :
    checkSetup (mkViewSetup sid n sz u v attrs) n sz u v attrs = .ok () := by
  simp [checkSetup, mkViewSetup, dictEq_self attrs h]

theorem requireViewSetup_self (sid : Int) (n : String) (sz : ITriple) (u : String)
    (v : QTriple) (attrs : List (String × Int)) (h : (attrs.map Prod.fst).Nodup) :
    requireViewSetup [mkViewSetup sid n sz u v attrs] sid n sz u v attrs =
      .ok [mkViewSetup sid n sz u v attrs] := by
  rw [requireViewSetup, List.find?_cons_of_pos _ (by simp [mkViewSetup])]
  simp only [checkSetup_self sid n sz u v attrs h]

theorem updateAttributes_init (attrs : List (String × Int)) :
    ∀ (l : List (String × Int)), (∀ p ∈ l, lookupKey p.1 attrs = some p.2) →
      updateAttributes attrs (initAttributes l) = .ok (initAttributes l) := by
  intro l
  induction l with
  | nil =>
    intro _
    rfl
  | cons p rest ih =>
    intro h
    have hp := h p (List.mem_cons_self p rest)
    have hrest := ih (fun q hq => h q (List.mem_cons_of_mem p hq))
    simp only [initAttributes, List.map_cons] at hrest ⊢
    simp only [updateAttributes, updateRegistry, hp, List.map_cons, List.map_nil]
    rw [if_pos (by simp), hrest]

/-- Claim C1 (amended): after a successful first write, a second call to
`write_h5_metadata` with the same arguments leaves the container metadata
unchanged (idempotent compare-or-write); a second call to `write_xml_metadata`
with identical parameters succeeds and leaves every part of the XML document
unchanged except that it unconditionally appends one more `ViewRegistration`
element — a duplicate of the one the first call wrote — so the XML file is not
byte-for-byte equivalent to the state after the first write. -/
theorem write_metadata_second_call (a : XmlArgs)
    (hnd : (a.attributes.map Prod.fst).Nodup) (d1 : Doc)
    (h1 : write_xml_metadata none a = .ok d1) :
    write_xml_metadata (some d1) a =
      .ok { d1 with viewRegs := d1.viewRegs ++
              [mkViewReg a.setupId a.timepoint a.resolution a.affine] }
    ∧ ∀ (st st2 : H5Meta) (sfs chs : List ITriple) (sid : Int),
        write_h5_metadata st sfs chs sid = (st2, none) →
        write_h5_metadata st2 sfs chs sid = (st2, none) := by
  constructor
  · have hD : write_xml_metadata none a =
        .ok ⟨if a.isH5 then "bdv.hdf5" else "bdv.n5", a.dataFile,
          [mkViewSetup a.setupId (resolvedName a) (sizeXYZ a) a.unit (voxelXYZ a) a.attributes],
          initAttributes a.attributes, a.timepoint, a.timepoint,
          [mkViewReg a.setupId a.timepoint a.resolution a.affine]⟩ := rfl
    rw [hD] at h1
    have hd := Except.ok.inj h1
    subst hd
    simp only [write_xml_metadata,
      updateAttributes_init a.attributes a.attributes (fun p hp => lookupKey_of_nodup hnd hp),
      requireViewSetup_self a.setupId (resolvedName a) (sizeXYZ a) a.unit (voxelXYZ a)
        a.attributes hnd,
      min_self, max_self]
  · intro st st2 sfs chs sid h
    have hn : (write_h5_metadata st sfs chs sid).2 = none := by rw [h]
    have hfst : (write_h5_metadata st sfs chs sid).1 = st2 := by rw [h]
    have hp := write_h5_metadata_post hn
    rw [hfst] at hp
    exact write_h5_metadata_idem hp.1 hp.2

/-- Claim C1 counterexample: for the concrete arguments `a0`, the first write
produces `doc1`, and the second identical write does not reproduce `doc1` (it
appends a duplicate `ViewRegistration`), refuting byte-for-byte idempotence of
the XML document. -/
theorem write_metadata_second_call_counterexample :
    write_xml_metadata none a0 = .ok doc1
    ∧ write_xml_metadata (some doc1) a0 ≠ .ok doc1 := by
  exact ⟨rfl, by decide⟩

/-- Claim C1 witness: the amended statement at the concrete input `a0`. -/
theorem write_metadata_second_call_witness :
    write_xml_metadata (some doc1) a0 =
      .ok { doc1 with viewRegs := doc1.viewRegs ++ [mkViewReg 0 0 (1, 1, 1) none] } :=
  (write_metadata_second_call a0 (by decide) doc1 rfl).1

theorem updateRegistry_ok {attrs2 : List (String × Int)} {reg : AttrRegistry} {j : Int}
    (hj : lookupKey reg.name attrs2 = some j) :
    ∃ r2, updateRegistry attrs2 reg = .ok r2 := by
  simp only [updateRegistry, hj]
  split
  · exact ⟨reg, rfl⟩
  · exact ⟨_, rfl⟩

theorem updateAttributes_ok (attrs2 : List (String × Int)) :
    ∀ (regs : List AttrRegistry), (∀ r ∈ regs, ∃ j, lookupKey r.name attrs2 = some j) →
      ∃ regs2, updateAttributes attrs2 regs = .ok regs2 := by
  intro regs
  induction regs with
  | nil =>
    intro _
    exact ⟨[], rfl⟩
  | cons r rs ih =>
    intro h
    obtain ⟨j, hj⟩ := h r (List.mem_cons_self r rs)
    obtain ⟨r2, hr2⟩ := updateRegistry_ok hj
    obtain ⟨rs2, hrs⟩ := ih (fun q hq => h q (List.mem_cons_of_mem r hq))
    exact ⟨r2 :: rs2, by simp only [updateAttributes, hr2, hrs]⟩

theorem checkSetup_err_name {vs : ViewSetupX} {n : String} {sz : ITriple} {u : String}
    {v : QTriple} {attrs : List (String × Int)} (h : vs.name ≠ n) :
    checkSetup vs n sz u v attrs = .error "Incompatible setup name" := by
  rw [checkSetup, if_pos h]

theorem checkSetup_err_size {vs : ViewSetupX} {n : String} {sz : ITriple} {u : String}
    {v : QTriple} {attrs : List (String × Int)} (hn : vs.name = n) (h : vs.size ≠ sz) :
    checkSetup vs n sz u v attrs = .error "Incompatible dataset size" := by
  rw [checkSetup, if_neg (by simp [hn]), if_pos h]

theorem checkSetup_err_unit {vs : ViewSetupX} {n : String} {sz : ITriple} {u : String}
    {v : QTriple} {attrs : List (String × Int)} (hn : vs.name = n) (hs : vs.size = sz)
    (h : vs.unit ≠ u) :
    checkSetup vs n sz u v attrs = .error "Incompatible unit of measurement" := by
  rw [checkSetup, if_neg (by simp [hn]), if_neg (by simp [hs]), if_pos h]

theorem checkSetup_err_voxel {vs : ViewSetupX} {n : String} {sz : ITriple} {u : String}
    {v : QTriple} {attrs : List (String × Int)} (hn : vs.name = n) (hs : vs.size = sz)
    (hu : vs.unit = u) (h : vs.voxelSize ≠ v) :
    checkSetup vs n sz u v attrs = .error "Incompatible voxel size" := by
  rw [checkSetup, if_neg (by simp [hn]), if_neg (by simp [hs]), if_neg (by simp [hu]),
    if_pos h]

theorem checkSetup_err_attrs {vs : ViewSetupX} {n : String} {sz : ITriple} {u : String}
    {v : QTriple} {attrs : List (String × Int)} (hn : vs.name = n) (hs : vs.size = sz)
    (hu : vs.unit = u) (hv : vs.voxelSize = v) (h : dictEq vs.attributes attrs = false) :
    checkSetup vs n sz u v attrs = .error "Incompatible view attributes" := by
  rw [checkSetup, if_neg (by simp [hn]), if_neg (by simp [hs]), if_neg (by simp [hu]),
    if_neg (by simp [hv]), if_pos (by simp [h])]

theorem requireViewSetup_err {vs : ViewSetupX} {sid : Int} {n : String} {sz : ITriple}
    {u : String} {v : QTriple} {attrs : List (String × Int)} {e : String}
    (hid : vs.id = sid) (hchk : checkSetup vs n sz u v attrs = .error e) :
    requireViewSetup [vs] sid n sz u v attrs = .error e := by
  rw [requireViewSetup, List.find?_cons_of_pos _ (by simp [hid])]
  simp only [hchk]

/-- Claim C3: calling `write_xml_metadata` again for an already present
`setup_id` with a different setup name (the id and the attribute mapping kept
equal) fails with the name-incompatibility error and the document on disk is
left unchanged; likewise, a mismatched size, unit, voxel size or attribute-id
mapping (all earlier-checked fields kept equal) fails with its own distinct
error, each time leaving the existing document untouched. -/
theorem write_xml_metadata_incompatible (a : XmlArgs)
    (hnd : (a.attributes.map Prod.fst).Nodup) (d1 : Doc)
    (h1 : write_xml_metadata none a = .ok d1) :
    (∀ a2 : XmlArgs, a2.setupId = a.setupId → a2.attributes = a.attributes →
        resolvedName a2 ≠ resolvedName a →
        writeXmlOnDisk (some d1) a2 = (some d1, some "Incompatible setup name"))
    ∧ (∀ a2 : XmlArgs, a2.setupId = a.setupId → a2.attributes = a.attributes →
        resolvedName a2 = resolvedName a → a2.shape ≠ a.shape →
        writeXmlOnDisk (some d1) a2 = (some d1, some "Incompatible dataset size"))
    ∧ (∀ a2 : XmlArgs, a2.setupId = a.setupId → a2.attributes = a.attributes →
        resolvedName a2 = resolvedName a → a2.shape = a.shape → a2.unit ≠ a.unit →
        writeXmlOnDisk (some d1) a2 = (some d1, some "Incompatible unit of measurement"))
    ∧ (∀ a2 : XmlArgs, a2.setupId = a.setupId → a2.attributes = a.attributes →
        resolvedName a2 = resolvedName a → a2.shape = a.shape → a2.unit = a.unit →
        a2.resolution ≠ a.resolution →
        writeXmlOnDisk (some d1) a2 = (some d1, some "Incompatible voxel size"))
    ∧ (∀ a2 : XmlArgs, a2.setupId = a.setupId →
        (∀ p ∈ a.attributes, ∃ j, lookupKey p.1 a2.attributes = some j) →
        resolvedName a2 = resolvedName a → a2.shape = a.shape → a2.unit = a.unit →
        a2.resolution = a.resolution → dictEq a.attributes a2.attributes = false →
        writeXmlOnDisk (some d1) a2 = (some d1, some "Incompatible view attributes")) := by
  have hD : write_xml_metadata none a =
      .ok ⟨if a.isH5 then "bdv.hdf5" else "bdv.n5", a.dataFile,
        [mkViewSetup a.setupId (resolvedName a) (sizeXYZ a) a.unit (voxelXYZ a) a.attributes],
        initAttributes a.attributes, a.timepoint, a.timepoint,
        [mkViewReg a.setupId a.timepoint a.resolution a.affine]⟩ := rfl
  rw [hD] at h1
  have hd := Except.ok.inj h1
  subst hd
  have hupd := updateAttributes_init a.attributes a.attributes
    (fun p hp => lookupKey_of_nodup hnd hp)
  refine ⟨?_, ?_, ?_, ?_, ?_⟩
  · intro a2 hsid hattrs hname
    have herr : write_xml_metadata
        (some ⟨if a.isH5 then "bdv.hdf5" else "bdv.n5", a.dataFile,
          [mkViewSetup a.setupId (resolvedName a) (sizeXYZ a) a.unit (voxelXYZ a) a.attributes],
          initAttributes a.attributes, a.timepoint, a.timepoint,
          [mkViewReg a.setupId a.timepoint a.resolution a.affine]⟩) a2 =
        .error "Incompatible setup name" := by
      simp only [write_xml_metadata, hattrs, hupd]
      rw [requireViewSetup_err hsid.symm (checkSetup_err_name (Ne.symm hname))]
    rw [writeXmlOnDisk, herr]
  · intro a2 hsid hattrs hname hsh
    have herr : write_xml_metadata
        (some ⟨if a.isH5 then "bdv.hdf5" else "bdv.n5", a.dataFile,
          [mkViewSetup a.setupId (resolvedName a) (sizeXYZ a) a.unit (voxelXYZ a) a.attributes],
          initAttributes a.attributes, a.timepoint, a.timepoint,
          [mkViewReg a.setupId a.timepoint a.resolution a.affine]⟩) a2 =
        .error "Incompatible dataset size" := by
      simp only [write_xml_metadata, hattrs, hupd]
      rw [requireViewSetup_err hsid.symm (checkSetup_err_size hname.symm
        (fun hc => hsh ((rev3_injective hc).symm)))]
    rw [writeXmlOnDisk, herr]
  · intro a2 hsid hattrs hname hsh hu
    have herr : write_xml_metadata
        (some ⟨if a.isH5 then "bdv.hdf5" else "bdv.n5", a.dataFile,
          [mkViewSetup a.setupId (resolvedName a) (sizeXYZ a) a.unit (voxelXYZ a) a.attributes],
          initAttributes a.attributes, a.timepoint, a.timepoint,
          [mkViewReg a.setupId a.timepoint a.resolution a.affine]⟩) a2 =
        .error "Incompatible unit of measurement" := by
      simp only [write_xml_metadata, hattrs, hupd]
      rw [requireViewSetup_err hsid.symm (checkSetup_err_unit hname.symm
        (by simp [mkViewSetup, sizeXYZ, hsh]) (Ne.symm hu))]
    rw [writeXmlOnDisk, herr]
  · intro a2 hsid hattrs hname hsh hu hr
    have herr : write_xml_metadata
        (some ⟨if a.isH5 then "bdv.hdf5" else "bdv.n5", a.dataFile,
          [mkViewSetup a.setupId (resolvedName a) (sizeXYZ a) a.unit (voxelXYZ a) a.attributes],
          initAttributes a.attributes, a.timepoint, a.timepoint,
          [mkViewReg a.setupId a.timepoint a.resolution a.affine]⟩) a2 =
        .error "Incompatible voxel size" := by
      simp only [write_xml_metadata, hattrs, hupd]
      rw [requireViewSetup_err hsid.symm (checkSetup_err_voxel hname.symm
        (by simp [mkViewSetup, sizeXYZ, hsh]) hu.symm
        (fun hc => hr ((rev3_injective hc).symm)))]
    rw [writeXmlOnDisk, herr]
  · intro a2 hsid hpres hname hsh hu hr hde
    obtain ⟨regs2, hregs2⟩ := updateAttributes_ok a2.attributes (initAttributes a.attributes)
      (by
        intro q hq
        obtain ⟨p, hp, hpq⟩ := List.mem_map.mp hq
        subst hpq
        exact hpres p hp)
    have herr : write_xml_metadata
        (some ⟨if a.isH5 then "bdv.hdf5" else "bdv.n5", a.dataFile,
          [mkViewSetup a.setupId (resolvedName a) (sizeXYZ a) a.unit (voxelXYZ a) a.attributes],
          initAttributes a.attributes, a.timepoint, a.timepoint,
          [mkViewReg a.setupId a.timepoint a.resolution a.affine]⟩) a2 =
        .error "Incompatible view attributes" := by
      simp only [write_xml_metadata, hregs2]
      rw [requireViewSetup_err hsid.symm (checkSetup_err_attrs hname.symm
        (by simp [mkViewSetup, sizeXYZ, hsh]) hu.symm (by simp [mkViewSetup, voxelXYZ, hr]) hde)]
    rw [writeXmlOnDisk, herr]

/-- Claim C3 witness: re-writing setup 0 with the name `Other` instead of
`Setup0` fails with the name error and leaves `doc1` on disk. -/
theorem write_xml_metadata_incompatible_witness :
    writeXmlOnDisk (some doc1) { a0 with setupName := some "Other" } =
      (some doc1, some "Incompatible setup name") :=
  (write_xml_metadata_incompatible a0 (by decide) doc1 rfl).1
    { a0 with setupName := some "Other" } rfl rfl (by decide)

/-- Claim C7: for an existing document, `write_xml_metadata` sets the
`Timepoints` range to `[min(first, t), max(last, t)]`, so the range only
widens; a fresh document starts at `[t, t]`; and concretely, writing
timepoints 2, then 0, then 5 to the same document yields the range `[0, 5]`. -/
theorem write_xml_metadata_timepoints :
    (∀ (d : Doc) (a : XmlArgs) (d2 : Doc), write_xml_metadata (some d) a = .ok d2 →
        d2.firstT = min d.firstT a.timepoint ∧ d2.lastT = max d.lastT a.timepoint)
    ∧ (∀ (a : XmlArgs) (d2 : Doc), write_xml_metadata none a = .ok d2 →
        d2.firstT = a.timepoint ∧ d2.lastT = a.timepoint)
    ∧ (Except.map (fun d => (d.firstT, d.lastT))
        (Except.bind
          (Except.bind (write_xml_metadata none { a0 with timepoint := 2 })
            (fun d => write_xml_metadata (some d) { a0 with timepoint := 0 }))
          (fun d => write_xml_metadata (some d) { a0 with timepoint := 5 }))) =
      .ok (0, 5) := by
  refine ⟨?_, ?_, by decide⟩
  · intro d a d2 h
    simp only [write_xml_metadata] at h
    split at h
    · exact Except.noConfusion h
    · split at h
      · exact Except.noConfusion h
      · have hd := Except.ok.inj h
        rw [← hd]
        exact ⟨rfl, rfl⟩
  · intro a d2 h
    simp only [write_xml_metadata] at h
    split at h
    · exact Except.noConfusion h
    · have hd := Except.ok.inj h
      rw [← hd]
      exact ⟨rfl, rfl⟩

/-- Claim C7 witness: updating `doc1` (range `[0, 0]`) at timepoint 7 widens
the range to `[min 0 7, max 0 7] = [0, 7]`. -/
theorem write_xml_metadata_timepoints_witness :
    ({ doc1 with
        lastT := 7
        viewRegs := doc1.viewRegs ++ [mkViewReg 0 7 (1, 1, 1) none] } : Doc).firstT =
      min doc1.firstT 7
    ∧ ({ doc1 with
        lastT := 7
        viewRegs := doc1.viewRegs ++ [mkViewReg 0 7 (1, 1, 1) none] } : Doc).lastT =
      max doc1.lastT 7 :=
  write_xml_metadata_timepoints.1 doc1 { a0 with timepoint := 7 } _ (by decide)

theorem vaLoop_lookup {attrs : List (String × Option Int)}
    {recAttrs : Option (List (String × Int))} :
    ∀ {regs : List AttrRegistry} {out : List (String × Int)},
      (regs.map AttrRegistry.name).Nodup →
      vaLoop attrs recAttrs regs = .ok out →
      ∀ reg ∈ regs, ∃ tid rid, lookupKey reg.name attrs = some tid
        ∧ vaResolve tid recAttrs reg.name reg = .ok rid
        ∧ lookupKey reg.name out = some rid := by
  intro regs
  induction regs with
  | nil =>
    intro out _ _ reg hreg
    cases hreg
  | cons r rs ih =>
    intro out hnd h reg hreg
    simp only [List.map_cons, List.nodup_cons] at hnd
    simp only [vaLoop] at h
    split at h
    next hlk => exact Except.noConfusion h
    next tid0 hlk =>
      split at h
      next e hres => exact Except.noConfusion h
      next rid0 hres =>
        split at h
        next e hloop => exact Except.noConfusion h
        next out0 hloop =>
          have hout := Except.ok.inj h
          rcases List.mem_cons.mp hreg with hr | hr
          · subst hr
            exact ⟨tid0, rid0, hlk, hres, by rw [← hout, lookupKey, if_pos rfl]⟩
          · have hne : r.name ≠ reg.name := fun he =>
              hnd.1 (he ▸ List.mem_map.mpr ⟨reg, hr, rfl⟩)
            obtain ⟨tid, rid, h1, h2, h3⟩ := ih hnd.2 hloop reg hr
            refine ⟨tid, rid, h1, h2, ?_⟩
            rw [← hout, lookupKey, if_neg hne]
            exact h3

theorem vaLoop_err_of_mismatch {attrs : List (String × Option Int)}
    {r : List (String × Int)} {reg : AttrRegistry} {i j : Int} :
    ∀ {regs : List AttrRegistry}, reg ∈ regs →
      lookupKey reg.name attrs = some (some i) →
      lookupKey reg.name r = some j → i ≠ j →
      isErr (vaLoop attrs (some r) regs) = true := by
  intro regs
  induction regs with
  | nil =>
    intro hreg _ _ _
    cases hreg
  | cons r0 rs ih =>
    intro hreg hlk hr hij
    rcases List.mem_cons.mp hreg with h | h
    · subst h
      simp only [vaLoop, hlk, vaResolve, hr, if_neg hij]
      rfl
    · simp only [vaLoop]
      split
      next hlk0 => rfl
      next tid0 hlk0 =>
        split
        next e hres => rfl
        next rid0 hres =>
          have herr := ih h hlk hr hij
          split
          next e hloop => rfl
          next out0 hloop =>
            rw [hloop] at herr
            exact Bool.noConfusion herr

theorem vaLoop_err_of_missing {attrs : List (String × Option Int)}
    (recAttrs : Option (List (String × Int))) {reg : AttrRegistry} :
    ∀ {regs : List AttrRegistry}, reg ∈ regs → lookupKey reg.name attrs = none →
      isErr (vaLoop attrs recAttrs regs) = true := by
  intro regs
  induction regs with
  | nil =>
    intro hreg _
    cases hreg
  | cons r0 rs ih =>
    intro hreg hlk
    rcases List.mem_cons.mp hreg with h | h
    · subst h
      simp only [vaLoop, hlk]
      rfl
    · simp only [vaLoop]
      split
      next hlk0 => rfl
      next tid0 hlk0 =>
        split
        next e hres => rfl
        next rid0 hres =>
          have herr := ih h hlk
          split
          next e hloop => rfl
          next out0 hloop =>
            rw [hloop] at herr
            exact Bool.noConfusion herr

/-- Claim C8: `validate_attributes` resolves a requested id of `None` to 0
when no document exists; with a document, a `None` request resolves to the
registry's maximum existing id plus one when the setup has no prior attribute
record (so after the first setup took id 0, a second new setup gets 1), and to
the setup's recorded id when a record exists; an explicit id that differs from
the setup's recorded id raises an error. -/
theorem validate_attributes_resolution :
    (∀ (attrs : List (String × Option Int)) (sid : Int),
        validate_attributes none attrs sid = .ok (attrs.map (fun p => (p.1, p.2.getD 0))))
    ∧ (∀ (d : Doc) (attrs : List (String × Option Int)) (sid : Int)
          (out : List (String × Int)),
        (d.registries.map AttrRegistry.name).Nodup →
        validate_attributes (some d) attrs sid = .ok out →
        ∀ reg ∈ d.registries,
          (lookupKey reg.name attrs = some none →
            findSetupAttrs d.viewSetups sid = none →
              ∃ m, maxList (reg.entries.map AttrEntry.id) = .ok m
                ∧ lookupKey reg.name out = some (m + 1))
          ∧ (∀ r, lookupKey reg.name attrs = some none →
              findSetupAttrs d.viewSetups sid = some r →
                lookupKey reg.name out = lookupKey reg.name r)
          ∧ (∀ i, lookupKey reg.name attrs = some (some i) →
              lookupKey reg.name out = some i))
    ∧ (∀ (d : Doc) (attrs : List (String × Option Int)) (sid : Int) (reg : AttrRegistry)
          (r : List (String × Int)) (i j : Int),
        reg ∈ d.registries → lookupKey reg.name attrs = some (some i) →
        findSetupAttrs d.viewSetups sid = some r → lookupKey reg.name r = some j →
        i ≠ j → isErr (validate_attributes (some d) attrs sid) = true)
    ∧ validate_attributes none [("channel", none)] 0 = .ok [("channel", 0)]
    ∧ validate_attributes (some doc1) [("channel", none)] 1 = .ok [("channel", 1)] := by
  refine ⟨fun attrs sid => rfl, ?_, ?_, rfl, by decide⟩
  · intro d attrs sid out hnd hok reg hreg
    simp only [validate_attributes] at hok
    split at hok
    next e hv => exact Except.noConfusion hok
    next out0 hv =>
      split at hok
      next hany => exact Except.noConfusion hok
      next hany =>
        have hout := Except.ok.inj hok
        subst hout
        obtain ⟨tid, rid, h1, h2, h3⟩ := vaLoop_lookup hnd hv reg hreg
        refine ⟨?_, ?_, ?_⟩
        · intro hlkn hrec
          have htid : tid = none := Option.some.inj (h1.symm.trans hlkn)
          subst htid
          rw [hrec] at h2
          simp only [vaResolve] at h2
          split at h2
          next e hm => exact Except.noConfusion h2
          next m hm => exact ⟨m, hm, by rw [h3, ← Except.ok.inj h2]⟩
        · intro r hlkn hrec
          have htid : tid = none := Option.some.inj (h1.symm.trans hlkn)
          subst htid
          rw [hrec] at h2
          simp only [vaResolve] at h2
          split at h2
          next j hr => rw [h3, hr, ← Except.ok.inj h2]
          next hr => exact Except.noConfusion h2
        · intro i hlki
          have htid : tid = some i := Option.some.inj (h1.symm.trans hlki)
          subst htid
          revert h2
          cases hrec : findSetupAttrs d.viewSetups sid with
          | none =>
            intro h2
            simp only [vaResolve] at h2
            rw [h3, ← Except.ok.inj h2]
          | some r =>
            intro h2
            simp only [vaResolve] at h2
            split at h2
            next j hr =>
              split at h2
              next hij => rw [h3, ← Except.ok.inj h2]
              next hij => exact Except.noConfusion h2
            next hr => exact Except.noConfusion h2
  · intro d attrs sid reg r i j hreg hlk hrec hr hij
    simp only [validate_attributes, hrec]
    split
    next e hv => rfl
    next out0 hv =>
      have herr := vaLoop_err_of_mismatch hreg hlk hr hij
      rw [hv] at herr
      exact Bool.noConfusion herr

/-- Claim C8 witness: for `doc1` (setup 0 recorded with `channel = 0`), an
explicit request of id 0 for setup 0 validates and resolves `channel` to 0. -/
theorem validate_attributes_resolution_witness :
    lookupKey "channel" [(("channel" : String), (0 : Int))] = some 0 :=
  ((validate_attributes_resolution.2.1 doc1 [("channel", some 0)] 0 [("channel", 0)]
      (by decide) (by decide)) ⟨"channel", [⟨0, "0"⟩]⟩ (by decide)).2.2 0 (by decide)

/-- Claim C9: for an existing document, `validate_attributes` raises when a
registered attribute name is absent from the requested mapping, and also when
the requested mapping contains a name that is not registered in the document:
the requested name set must equal the registered name set exactly. -/
theorem validate_attributes_name_check :
    (∀ (d : Doc) (attrs : List (String × Option Int)) (sid : Int) (reg : AttrRegistry),
        reg ∈ d.registries → lookupKey reg.name attrs = none →
        isErr (validate_attributes (some d) attrs sid) = true)
    ∧ (∀ (d : Doc) (attrs : List (String × Option Int)) (sid : Int)
          (p : String × Option Int),
        p ∈ attrs → p.1 ∉ regNames d →
        isErr (validate_attributes (some d) attrs sid) = true) := by
  constructor
  · intro d attrs sid reg hreg hlk
    simp only [validate_attributes]
    split
    next e hv => rfl
    next out0 hv =>
      have herr := vaLoop_err_of_missing (findSetupAttrs d.viewSetups sid) hreg hlk
      rw [hv] at herr
      exact Bool.noConfusion herr
  · intro d attrs sid p hp hnames
    simp only [validate_attributes]
    split
    next e hv => rfl
    next out0 hv =>
      rw [List.any_eq_true.mpr ⟨p, hp, by simp [hnames]⟩]
      rfl

/-- Claim C9 witness: requesting the unregistered name `tile` against `doc1`
(whose only registry is `channel`) raises. -/
theorem validate_attributes_name_check_witness :
    isErr (validate_attributes (some doc1) [("tile", some 0)] 0) = true :=
  validate_attributes_name_check.2 doc1 [("tile", some 0)] 0 ("tile", some 0)
    (by decide) (by decide)

end Pybdv
